/-
Verification development for a Go NBT (named binary tag) decoder.

The decoder is embedded shallowly: the byte stream is a `List Nat` (each
element one byte, 0..255), readers return `Except Err (value × remaining
stream)`, mirroring Go functions that take an `io.Reader` and return
`(value, error)`.  Go's `binary.Read` on an in-memory buffer either consumes
exactly the requested bytes or fails with `io.EOF` / `io.ErrUnexpectedEOF`;
both surface here as `Err.incomplete`.  The recursive tag reader is indexed
by fuel (Go recursion is unbounded; any fuel larger than the recursion depth
plus element counts gives the Go behaviour, and every theorem quantifies over
sufficient fuel).
-/
import Mathlib

namespace NBT

/-- Byte order, the `binary.ByteOrder` parameter each reader receives. -/
inductive ByteOrder where
  | big
  | little
deriving Repr, DecidableEq

/-- Assemble a byte sequence (in stream order) into an unsigned integer,
as `order.Uint16/Uint32/Uint64` do in Go. -/
def ByteOrder.toUint : ByteOrder → List Nat → Nat
  | .big, bs => bs.foldl (fun acc b => acc * 256 + b) 0
  | .little, bs => bs.reverse.foldl (fun acc b => acc * 256 + b) 0

/-- Reinterpret a `w`-bit unsigned value as two's-complement signed,
as Go does when `binary.Read` fills an `int16`/`int32`/`int64`. -/
def toSigned (w v : Nat) : Int :=
  if v < 2 ^ (w - 1) then (v : Int) else (v : Int) - 2 ^ w

/-- Error classes of the decoder.  The Go code reports errors as wrapped
`fmt.Errorf` strings; each constructor stands for one class of message.
`outOfFuel` is an artifact of the fuel-indexed embedding only, never the
model of a Go error.  `goPanic` models a Go runtime panic (a crash, not an
error return): `make([]byte, n)` with `n < 0` panics. -/
inductive Err where
  | outOfFuel
  | incomplete
  | invalidTagId (id : Nat)
  | invalidEncoding
  | negativeSize (size : Int)
  | endPayload
  | goPanic
deriving Repr, DecidableEq

/-- Read one byte (Go `binary.Read` into a `byte`/`uint8`; order is
irrelevant at width 1). -/
def readU8 : List Nat → Except Err (Nat × List Nat)
  | [] => .error .incomplete
  | b :: s => .ok (b, s)

/-- Read exactly `n` bytes (Go `binary.Read` into `make([]byte, n)`,
which uses `io.ReadFull`). -/
def readExact : Nat → List Nat → Except Err (List Nat × List Nat)
  | 0, s => .ok ([], s)
  | _ + 1, [] => .error .incomplete
  | n + 1, b :: s =>
    match readExact n s with
    | .error e => .error e
    | .ok (bs, r) => .ok (b :: bs, r)

/-- Read a 16-bit unsigned integer in the given order. -/
def readU16 (order : ByteOrder) (s : List Nat) : Except Err (Nat × List Nat) :=
  match readExact 2 s with
  | .error e => .error e
  | .ok (bs, r) => .ok (order.toUint bs, r)

/-- Read a 16-bit signed integer in the given order. -/
def readI16 (order : ByteOrder) (s : List Nat) : Except Err (Int × List Nat) :=
  match readExact 2 s with
  | .error e => .error e
  | .ok (bs, r) => .ok (toSigned 16 (order.toUint bs), r)

/-- Read a 32-bit signed integer in the given order. -/
def readI32 (order : ByteOrder) (s : List Nat) : Except Err (Int × List Nat) :=
  match readExact 4 s with
  | .error e => .error e
  | .ok (bs, r) => .ok (toSigned 32 (order.toUint bs), r)

/-- Read a 64-bit signed integer in the given order. -/
def readI64 (order : ByteOrder) (s : List Nat) : Except Err (Int × List Nat) :=
  match readExact 8 s with
  | .error e => .error e
  | .ok (bs, r) => .ok (toSigned 64 (order.toUint bs), r)

/-- Is `b` a UTF-8 continuation byte (0x80..0xBF)? -/
def utf8Cont (b : Nat) : Bool := 0x80 ≤ b && b ≤ 0xBF

/-- UTF-8 validity of a byte sequence, exactly Go's `utf8.Valid` /
`utf8.ValidString`: ASCII directly; leading bytes 0xC2..0xF4 with the
standard restricted second-byte ranges (rejecting overlong forms,
surrogates and values above U+10FFFF); everything else invalid. -/
def utf8Valid : List Nat → Bool
  | [] => true
  | b :: rest =>
    if b ≤ 0x7F then utf8Valid rest
    else if 0xC2 ≤ b && b ≤ 0xDF then
      match rest with
      | c1 :: rest2 => utf8Cont c1 && utf8Valid rest2
      | [] => false
    else if b = 0xE0 then
      match rest with
      | c1 :: c2 :: rest2 => (0xA0 ≤ c1 && c1 ≤ 0xBF) && utf8Cont c2 && utf8Valid rest2
      | _ => false
    else if (0xE1 ≤ b && b ≤ 0xEC) || b = 0xEE || b = 0xEF then
      match rest with
      | c1 :: c2 :: rest2 => utf8Cont c1 && utf8Cont c2 && utf8Valid rest2
      | _ => false
    else if b = 0xED then
      match rest with
      | c1 :: c2 :: rest2 => (0x80 ≤ c1 && c1 ≤ 0x9F) && utf8Cont c2 && utf8Valid rest2
      | _ => false
    else if b = 0xF0 then
      match rest with
      | c1 :: c2 :: c3 :: rest2 =>
        (0x90 ≤ c1 && c1 ≤ 0xBF) && utf8Cont c2 && utf8Cont c3 && utf8Valid rest2
      | _ => false
    else if 0xF1 ≤ b && b ≤ 0xF3 then
      match rest with
      | c1 :: c2 :: c3 :: rest2 =>
        utf8Cont c1 && utf8Cont c2 && utf8Cont c3 && utf8Valid rest2
      | _ => false
    else if b = 0xF4 then
      match rest with
      | c1 :: c2 :: c3 :: rest2 =>
        (0x80 ≤ c1 && c1 ≤ 0x8F) && utf8Cont c2 && utf8Cont c3 && utf8Valid rest2
      | _ => false
    else false

/-! Tag ids, Go constants `tagEnd` .. `tagLongArray`. -/

def tagEnd : Nat := 0
def tagByte : Nat := 1
def tagShort : Nat := 2
def tagInt : Nat := 3
def tagLong : Nat := 4
def tagFloat : Nat := 5
def tagDouble : Nat := 6
def tagByteArray : Nat := 7
def tagString : Nat := 8
def tagList : Nat := 9
def tagCompound : Nat := 10
def tagIntArray : Nat := 11
def tagLongArray : Nat := 12

mutual
/-- The typed payload a tag carries.  In Go the `tag.payload` field is `any`
holding, per the `tag` doc comment: `byte`, `int16`, `int32`, `int64`,
`float32`, `float64`, `[]byte`, `string`, `[]any`, `[]*tag`, `[]int32` or
`[]int64`.  Go's `binary.Read` builds a `float32`/`float64` with
`math.Float32frombits`/`Float64frombits` of the order-decoded word — a
bit-preserving reinterpretation — so float payloads are carried here by
their IEEE-754 bit pattern; strings and names are carried as their UTF-8
byte sequences. -/
inductive Payload where
  | byte (v : Nat)
  | short (v : Int)
  | int (v : Int)
  | long (v : Int)
  | float (bits : Nat)
  | double (bits : Nat)
  | byteArray (vs : List Nat)
  | str (vs : List Nat)
  | list (vs : List Payload)
  | compound (ts : List Tag)
  | intArray (vs : List Int)
  | longArray (vs : List Int)

/-- Go `type tag struct { id uint8; name string; payload any }`.  The End
tag is returned by `ReadTag` with zero-value name and payload; `none`
models the nil payload. -/
inductive Tag where
  | mk (id : Nat) (name : List Nat) (payload : Option Payload)
end

/-- Field accessor for `tag.id`. -/
def Tag.id : Tag → Nat
  | .mk i _ _ => i

/-- Field accessor for `tag.name`. -/
def Tag.name : Tag → List Nat
  | .mk _ n _ => n

/-- Field accessor for `tag.payload`. -/
def Tag.payload : Tag → Option Payload
  | .mk _ _ p => p

/-- Go `readTagID`: read one byte; ids above 12 (`tagLongArray`) are
rejected before anything further is read. -/
def readTagID (_order : ByteOrder) (s : List Nat) : Except Err (Nat × List Nat) :=
  match readU8 s with
  | .error e => .error e
  | .ok (id, s1) =>
    if id > tagLongArray then .error (.invalidTagId id) else .ok (id, s1)

/-- Go `readTagName`: read a signed 16-bit length, then that many bytes,
then validate UTF-8.  The Go code has no negative-length check: it calls
`make([]byte, length)` directly, and Go's `make` with a negative length is
a runtime panic (`makeslice: len out of range`), modelled as `Err.goPanic`. -/
def readTagName (order : ByteOrder) (s : List Nat) : Except Err (List Nat × List Nat) :=
  match readI16 order s with
  | .error e => .error e
  | .ok (length, s1) =>
    if length < 0 then .error .goPanic
    else
      match readExact length.toNat s1 with
      | .error e => .error e
      | .ok (nameBytes, s2) =>
        if utf8Valid nameBytes then .ok (nameBytes, s2) else .error .invalidEncoding

/-- Go `readTagBytePayload`: one byte. -/
def readTagBytePayload (_order : ByteOrder) (s : List Nat) : Except Err (Nat × List Nat) :=
  readU8 s

/-- Go `readTagShortPayload`: a signed 16-bit integer. -/
def readTagShortPayload (order : ByteOrder) (s : List Nat) : Except Err (Int × List Nat) :=
  readI16 order s

/-- Go `readTagIntPayload`: a signed 32-bit integer. -/
def readTagIntPayload (order : ByteOrder) (s : List Nat) : Except Err (Int × List Nat) :=
  readI32 order s

/-- Go `readTagLongPayload`: a signed 64-bit integer. -/
def readTagLongPayload (order : ByteOrder) (s : List Nat) : Except Err (Int × List Nat) :=
  readI64 order s

/-- Go `readTagFloatPayload`: `binary.Read` into a `float32`, i.e.
`math.Float32frombits(order.Uint32(bytes))`; the payload is the bit
pattern, preserved exactly. -/
def readTagFloatPayload (order : ByteOrder) (s : List Nat) : Except Err (Nat × List Nat) :=
  match readExact 4 s with
  | .error e => .error e
  | .ok (bs, r) => .ok (order.toUint bs, r)

/-- Go `readTagDoublePayload`: `binary.Read` into a `float64`, i.e.
`math.Float64frombits(order.Uint64(bytes))`; the payload is the bit
pattern, preserved exactly. -/
def readTagDoublePayload (order : ByteOrder) (s : List Nat) : Except Err (Nat × List Nat) :=
  match readExact 8 s with
  | .error e => .error e
  | .ok (bs, r) => .ok (order.toUint bs, r)

/-- The element loop of Go `readTagByteArrayPayload`: `size` single-byte
reads, appending; the first failure aborts with no partial result. -/
def readByteElems : Nat → List Nat → Except Err (List Nat × List Nat)
  | 0, s => .ok ([], s)
  | n + 1, s =>
    match readU8 s with
    | .error e => .error e
    | .ok (b, s1) =>
      match readByteElems n s1 with
      | .error e => .error e
      | .ok (bs, s2) => .ok (b :: bs, s2)

/-- Go `readTagByteArrayPayload`: signed 32-bit size, negative rejected,
then `size` bytes one at a time. -/
def readTagByteArrayPayload (order : ByteOrder) (s : List Nat) :
    Except Err (List Nat × List Nat) :=
  match readI32 order s with
  | .error e => .error e
  | .ok (size, s1) =>
    if size < 0 then .error (.negativeSize size)
    else readByteElems size.toNat s1

/-- The element loop of Go `readTagIntArrayPayload`. -/
def readIntElems (order : ByteOrder) : Nat → List Nat → Except Err (List Int × List Nat)
  | 0, s => .ok ([], s)
  | n + 1, s =>
    match readI32 order s with
    | .error e => .error e
    | .ok (v, s1) =>
      match readIntElems order n s1 with
      | .error e => .error e
      | .ok (vs, s2) => .ok (v :: vs, s2)

/-- Go `readTagIntArrayPayload`: signed 32-bit size, negative rejected,
then `size` signed 32-bit elements one at a time. -/
def readTagIntArrayPayload (order : ByteOrder) (s : List Nat) :
    Except Err (List Int × List Nat) :=
  match readI32 order s with
  | .error e => .error e
  | .ok (size, s1) =>
    if size < 0 then .error (.negativeSize size)
    else readIntElems order size.toNat s1

/-- The element loop of Go `readTagLongArrayPayload`. -/
def readLongElems (order : ByteOrder) : Nat → List Nat → Except Err (List Int × List Nat)
  | 0, s => .ok ([], s)
  | n + 1, s =>
    match readI64 order s with
    | .error e => .error e
    | .ok (v, s1) =>
      match readLongElems order n s1 with
      | .error e => .error e
      | .ok (vs, s2) => .ok (v :: vs, s2)

/-- Go `readTagLongArrayPayload`: signed 32-bit size, negative rejected,
then `size` signed 64-bit elements one at a time. -/
def readTagLongArrayPayload (order : ByteOrder) (s : List Nat) :
    Except Err (List Int × List Nat) :=
  match readI32 order s with
  | .error e => .error e
  | .ok (size, s1) =>
    if size < 0 then .error (.negativeSize size)
    else readLongElems order size.toNat s1

/-- Go `readTagStringPayload`: unsigned 16-bit length, then that many
bytes, then UTF-8 validation (`utf8.ValidString`). -/
def readTagStringPayload (order : ByteOrder) (s : List Nat) :
    Except Err (List Nat × List Nat) :=
  match readU16 order s with
  | .error e => .error e
  | .ok (length, s1) =>
    match readExact length s1 with
    | .error e => .error e
    | .ok (bs, s2) =>
      if utf8Valid bs then .ok (bs, s2) else .error .invalidEncoding

mutual
/-- Go `ReadTag`: read the id; if it is `tagEnd` (0) return at once with a
zero-value tag (no name, nil payload) having consumed exactly the one id
byte; otherwise read the name and then dispatch the payload. -/
def ReadTag : Nat → ByteOrder → List Nat → Except Err (Tag × List Nat)
  | 0, _, _ => .error .outOfFuel
  | fuel + 1, order, s =>
    match readTagID order s with
    | .error e => .error e
    | .ok (id, s1) =>
      if id = tagEnd then .ok (Tag.mk id [] none, s1)
      else
        match readTagName order s1 with
        | .error e => .error e
        | .ok (name, s2) =>
          match readTagPayload fuel order id s2 with
          | .error e => .error e
          | .ok (p, s3) => .ok (Tag.mk id name (some p), s3)

/-- Go `readTagPayload`: dispatch on the tag id.  Id 0 (`tagEnd`) has no
payload-reading case and errors; ids above 12 hit the default error case
(unreachable from `ReadTag`, reachable from the list reader). -/
def readTagPayload : Nat → ByteOrder → Nat → List Nat → Except Err (Payload × List Nat)
  | 0, _, _, _ => .error .outOfFuel
  | fuel + 1, order, tagID, s =>
    match tagID with
    | 0 => .error .endPayload
    | 1 =>
      match readTagBytePayload order s with
      | .error e => .error e
      | .ok (v, r) => .ok (.byte v, r)
    | 2 =>
      match readTagShortPayload order s with
      | .error e => .error e
      | .ok (v, r) => .ok (.short v, r)
    | 3 =>
      match readTagIntPayload order s with
      | .error e => .error e
      | .ok (v, r) => .ok (.int v, r)
    | 4 =>
      match readTagLongPayload order s with
      | .error e => .error e
      | .ok (v, r) => .ok (.long v, r)
    | 5 =>
      match readTagFloatPayload order s with
      | .error e => .error e
      | .ok (v, r) => .ok (.float v, r)
    | 6 =>
      match readTagDoublePayload order s with
      | .error e => .error e
      | .ok (v, r) => .ok (.double v, r)
    | 7 =>
      match readTagByteArrayPayload order s with
      | .error e => .error e
      | .ok (v, r) => .ok (.byteArray v, r)
    | 8 =>
      match readTagStringPayload order s with
      | .error e => .error e
      | .ok (v, r) => .ok (.str v, r)
    | 9 =>
      match readTagListPayload fuel order s with
      | .error e => .error e
      | .ok (v, r) => .ok (.list v, r)
    | 10 =>
      match readTagCompoundPayload fuel order s with
      | .error e => .error e
      | .ok (v, r) => .ok (.compound v, r)
    | 11 =>
      match readTagIntArrayPayload order s with
      | .error e => .error e
      | .ok (v, r) => .ok (.intArray v, r)
    | 12 =>
      match readTagLongArrayPayload order s with
      | .error e => .error e
      | .ok (v, r) => .ok (.longArray v, r)
    | other => .error (.invalidTagId other)

/-- Go `readTagListPayload`: read the element-type byte (no validation of
its own), then a signed 32-bit length, then `for i := 0; i < int(length)`
payload reads — a negative length runs the loop zero times. -/
def readTagListPayload : Nat → ByteOrder → List Nat → Except Err (List Payload × List Nat)
  | 0, _, _ => .error .outOfFuel
  | fuel + 1, order, s =>
    match readU8 s with
    | .error e => .error e
    | .ok (tagID, s1) =>
      match readI32 order s1 with
      | .error e => .error e
      | .ok (length, s2) => readListElems fuel order tagID length.toNat s2

/-- The element loop of Go `readTagListPayload`: `n` payload reads of the
fixed element type via `readTagPayload`; the first failure aborts. -/
def readListElems : Nat → ByteOrder → Nat → Nat → List Nat →
    Except Err (List Payload × List Nat)
  | 0, _, _, _, _ => .error .outOfFuel
  | _ + 1, _, _, 0, s => .ok ([], s)
  | fuel + 1, order, tagID, n + 1, s =>
    match readTagPayload fuel order tagID s with
    | .error e => .error e
    | .ok (p, s1) =>
      match readListElems fuel order tagID n s1 with
      | .error e => .error e
      | .ok (ps, s2) => .ok (p :: ps, s2)

/-- Go `readTagCompoundPayload`: repeatedly `ReadTag` until an End tag is
produced; the End tag is consumed and discarded, every earlier tag is
appended in read order; any `ReadTag` failure aborts with no partial
result. -/
def readTagCompoundPayload : Nat → ByteOrder → List Nat → Except Err (List Tag × List Nat)
  | 0, _, _ => .error .outOfFuel
  | fuel + 1, order, s =>
    match ReadTag fuel order s with
    | .error e => .error e
    | .ok (t, s1) =>
      if t.id = tagEnd then .ok ([], s1)
      else
        match readTagCompoundPayload fuel order s1 with
        | .error e => .error e
        | .ok (ts, s2) => .ok (t :: ts, s2)
end

/-- Does a whole-tag decode succeed? -/
def decodeOk (fuel : Nat) (order : ByteOrder) (s : List Nat) : Bool :=
  match ReadTag fuel order s with
  | .ok _ => true
  | .error _ => false

/-- An IEEE-754 binary32 bit pattern is a NaN: exponent field all ones,
non-zero mantissa. -/
def isNaN32 (bits : Nat) : Prop := bits / 2 ^ 23 % 2 ^ 8 = 0xFF ∧ bits % 2 ^ 23 ≠ 0

/-- The IEEE-754 binary32 bit pattern of positive infinity. -/
def isPosInf32 (bits : Nat) : Prop := bits = 0x7F800000

/-! ### Helper lemmas -/

/-- Reading exactly the length of a prefix consumes that prefix. -/
theorem readExact_append (xs rest : List Nat) :
    readExact xs.length (xs ++ rest) = .ok (xs, rest) := by
  induction xs with
  | nil => rfl
  | cons b xs ih => simp [readExact, ih]

/-- Reading more bytes than remain fails with `incomplete`. -/
theorem readExact_short (n : Nat) (s : List Nat) (h : s.length < n) :
    readExact n s = .error .incomplete := by
  induction n generalizing s with
  | zero => omega
  | succ n ih =>
    cases s with
    | nil => rfl
    | cons b s =>
      simp only [List.length_cons] at h
      simp [readExact, ih s (by omega)]

/-- The byte-array element loop fails with `incomplete` when fewer bytes
remain than elements are requested. -/
theorem readByteElems_short (n : Nat) (s : List Nat) (h : s.length < n) :
    readByteElems n s = .error .incomplete := by
  induction n generalizing s with
  | zero => omega
  | succ n ih =>
    cases s with
    | nil => rfl
    | cons b s =>
      simp only [List.length_cons] at h
      simp [readByteElems, readU8, ih s (by omega)]

/-- `toSigned` is the identity below the sign bit. -/
theorem toSigned_of_lt {w v : Nat} (h : v < 2 ^ (w - 1)) : toSigned w v = v := by
  simp [toSigned, h]

/-- One unfolding step of the compound-payload loop. -/
theorem readTagCompoundPayload_succ (fuel : Nat) (order : ByteOrder) (s : List Nat) :
    readTagCompoundPayload (fuel + 1) order s =
      match ReadTag fuel order s with
      | .error e => .error e
      | .ok (t, s1) =>
        if t.id = tagEnd then .ok ([], s1)
        else
          match readTagCompoundPayload fuel order s1 with
          | .error e => .error e
          | .ok (ts, s2) => .ok (t :: ts, s2) := rfl

/-! ### Claims -/

/-- C8: byte order is a per-call parameter of every read: the same 2-byte
sequence 0x01 0x00 decodes as a Short payload with value 1 under
little-endian order and value 256 under big-endian order. -/
theorem C8_short_endianness :
    readTagShortPayload .little [0x01, 0x00] = .ok (1, [])
    ∧ readTagShortPayload .big [0x01, 0x00] = .ok (256, []) :=
  ⟨rfl, rfl⟩

/-- C10: Float and Double payloads are preserved bit-for-bit with no NaN
canonicalization: every 4-byte (resp. 8-byte) pattern decodes to the float
whose bits are exactly the order-assembled input bytes (Go builds the value
with `math.Float32frombits`/`Float64frombits`, a bit-preserving
reinterpretation, so the payload is carried here as its bit pattern); under
little-endian order the bytes 00 00 C0 7F decode to a Float payload that is
NaN, and 00 00 80 7F to positive infinity. -/
theorem C10_float_bit_exact (order : ByteOrder) (b0 b1 b2 b3 b4 b5 b6 b7 : Nat)
    (rest : List Nat) :
    readTagFloatPayload order (b0 :: b1 :: b2 :: b3 :: rest)
      = .ok (order.toUint [b0, b1, b2, b3], rest)
    ∧ readTagDoublePayload order (b0 :: b1 :: b2 :: b3 :: b4 :: b5 :: b6 :: b7 :: rest)
      = .ok (order.toUint [b0, b1, b2, b3, b4, b5, b6, b7], rest)
    ∧ readTagFloatPayload .little [0x00, 0x00, 0xC0, 0x7F] = .ok (0x7FC00000, [])
    ∧ isNaN32 0x7FC00000
    ∧ readTagFloatPayload .little [0x00, 0x00, 0x80, 0x7F] = .ok (0x7F800000, [])
    ∧ isPosInf32 0x7F800000 :=
  ⟨rfl, rfl, rfl, by constructor <;> decide, rfl, rfl⟩

/-- C4: for every input stream whose first byte is 0 (the End sentinel),
`ReadTag` returns immediately with an End tag carrying no name and no
payload, consuming exactly 1 byte: the remaining stream is untouched, so no
name-length prefix or name bytes are read. -/
theorem C4_end_tag (order : ByteOrder) (rest : List Nat) (fuel : Nat) :
    ReadTag (fuel + 1) order (0 :: rest) = .ok (Tag.mk 0 [] none, rest) :=
  rfl

/-- C2 (code bug): on a stream whose tag-name length prefix is the signed
16-bit value −1 (bytes 0xFF 0xFF), `readTagName` does not return an error
result: the Go code calls `make([]byte, length)` with the negative length,
which is a runtime panic (`makeslice: len out of range`), modelled as
`Err.goPanic`; via `ReadTag` the same stream after a non-End id byte hits
the same panic. -/
theorem C2_name_negative_length_panics :
    readTagName .big [0xFF, 0xFF] = .error .goPanic
    ∧ ReadTag 1 .big [0x01, 0xFF, 0xFF] = .error .goPanic :=
  ⟨rfl, rfl⟩

/-- C1 (counterexample): a List payload declaring element type 1 and count
−1 (bytes 0xFF 0xFF 0xFF 0xFF, signed 32-bit −1) decodes successfully to an
empty list — the negative count runs the element loop zero times, exactly
"treated as zero" — contradicting the claim that every List with a negative
declared count fails with a NegativeLength-class error. -/
theorem C1_counterexample :
    readTagListPayload 2 .big [0x01, 0xFF, 0xFF, 0xFF, 0xFF] = .ok ([], [])
    ∧ toSigned 32 (ByteOrder.toUint .big [0xFF, 0xFF, 0xFF, 0xFF]) = -1 :=
  ⟨rfl, by decide⟩

/-- C1 (amended): for ByteArray, IntArray and LongArray, every stream whose
declared signed 32-bit size is negative fails with the NegativeLength-class
error regardless of the trailing bytes; for List, a negative declared count
is not rejected: the element loop runs zero times and decoding succeeds
with an empty payload, consuming no trailing bytes. -/
theorem C1_amended (order : ByteOrder) (b0 b1 b2 b3 elemId fuel : Nat)
    (rest : List Nat)
    (h : toSigned 32 (ByteOrder.toUint order [b0, b1, b2, b3]) < 0) :
    readTagByteArrayPayload order (b0 :: b1 :: b2 :: b3 :: rest)
      = .error (.negativeSize (toSigned 32 (order.toUint [b0, b1, b2, b3])))
    ∧ readTagIntArrayPayload order (b0 :: b1 :: b2 :: b3 :: rest)
      = .error (.negativeSize (toSigned 32 (order.toUint [b0, b1, b2, b3])))
    ∧ readTagLongArrayPayload order (b0 :: b1 :: b2 :: b3 :: rest)
      = .error (.negativeSize (toSigned 32 (order.toUint [b0, b1, b2, b3])))
    ∧ readTagListPayload (fuel + 2) order (elemId :: b0 :: b1 :: b2 :: b3 :: rest)
      = .ok ([], rest) := by
  have hE : readExact 4 (b0 :: b1 :: b2 :: b3 :: rest) = .ok ([b0, b1, b2, b3], rest) := rfl
  have h0 : (toSigned 32 (ByteOrder.toUint order [b0, b1, b2, b3])).toNat = 0 :=
    Int.toNat_of_nonpos h.le
  refine ⟨?_, ?_, ?_, ?_⟩
  · simp [readTagByteArrayPayload, readI32, hE, h]
  · simp [readTagIntArrayPayload, readI32, hE, h]
  · simp [readTagLongArrayPayload, readI32, hE, h]
  · simp [readTagListPayload, readU8, readI32, hE, h0, readListElems]

/-- C3: for every tag id byte 0..12, `ReadTag` decodes a minimal
well-formed tag of that id successfully; for every first byte of 13 and
above, `ReadTag` fails with the invalid-tag-id error carrying that byte —
and it does so for every continuation `rest` of the stream, i.e. before any
name or payload bytes are consumed. -/
theorem C3_tag_id_bounds (order : ByteOrder) (id fuel : Nat) (rest : List Nat)
    (h : 13 ≤ id) :
    ReadTag (fuel + 1) order (id :: rest) = .error (.invalidTagId id)
    ∧ decodeOk 9 .big [0] = true
    ∧ decodeOk 9 .big [1, 0, 0, 7] = true
    ∧ decodeOk 9 .big [2, 0, 0, 0, 1] = true
    ∧ decodeOk 9 .big [3, 0, 0, 0, 0, 0, 1] = true
    ∧ decodeOk 9 .big [4, 0, 0, 0, 0, 0, 0, 0, 0, 0, 1] = true
    ∧ decodeOk 9 .big [5, 0, 0, 0, 0, 0, 0] = true
    ∧ decodeOk 9 .big [6, 0, 0, 0, 0, 0, 0, 0, 0, 0, 0] = true
    ∧ decodeOk 9 .big [7, 0, 0, 0, 0, 0, 0] = true
    ∧ decodeOk 9 .big [8, 0, 0, 0, 0] = true
    ∧ decodeOk 9 .big [9, 0, 0, 1, 0, 0, 0, 0] = true
    ∧ decodeOk 9 .big [10, 0, 0, 0] = true
    ∧ decodeOk 9 .big [11, 0, 0, 0, 0, 0, 0] = true
    ∧ decodeOk 9 .big [12, 0, 0, 0, 0, 0, 0] = true := by
  refine ⟨?_, rfl, rfl, rfl, rfl, rfl, rfl, rfl, rfl, rfl, rfl, rfl, rfl, rfl⟩
  have h12 : 12 < id := h
  simp [ReadTag, readTagID, readU8, tagLongArray, h12]

/-- C5: a tag name or String payload whose byte span is not valid UTF-8
fails with the invalid-encoding error even when the declared length matches
the available bytes exactly, and that error is distinct from the
truncation (incomplete) error. -/
theorem C5_utf8_enforcement (order : ByteOrder) (l0 l1 : Nat) (bytes rest : List Nat)
    (hv : utf8Valid bytes = false)
    (hl : ByteOrder.toUint order [l0, l1] = bytes.length) :
    readTagStringPayload order (l0 :: l1 :: (bytes ++ rest)) = .error .invalidEncoding
    ∧ (bytes.length < 2 ^ 15 →
        readTagName order (l0 :: l1 :: (bytes ++ rest)) = .error .invalidEncoding)
    ∧ Err.invalidEncoding ≠ Err.incomplete := by
  have hE : readExact 2 (l0 :: l1 :: (bytes ++ rest)) = .ok ([l0, l1], bytes ++ rest) := rfl
  refine ⟨?_, ?_, by decide⟩
  · simp [readTagStringPayload, readU16, hE, hl, readExact_append, hv]
  · intro hlen
    have hs : toSigned 16 (ByteOrder.toUint order [l0, l1]) = (bytes.length : Int) := by
      rw [hl]; exact toSigned_of_lt (by simpa using hlen)
    have hnn : ¬ ((bytes.length : Int) < 0) := by omega
    simp [readTagName, readI16, hE, hs, hnn, readExact_append, hv]

/-- C7: a ByteArray payload declaring size 8 but supplying only 3 further
bytes fails with the incomplete error, and in general every stream that
ends mid-array (fewer remaining bytes than the non-negative declared size)
fails with the incomplete error; the error result carries no value, so no
partial array is ever returned. -/
theorem C7_bytearray_truncation (order : ByteOrder) (b0 b1 b2 b3 : Nat)
    (rest : List Nat)
    (h0 : 0 ≤ toSigned 32 (ByteOrder.toUint order [b0, b1, b2, b3]))
    (h1 : (rest.length : Int) < toSigned 32 (ByteOrder.toUint order [b0, b1, b2, b3])) :
    readTagByteArrayPayload .big [0, 0, 0, 8, 1, 2, 3] = .error .incomplete
    ∧ readTagByteArrayPayload order (b0 :: b1 :: b2 :: b3 :: rest) = .error .incomplete := by
  refine ⟨rfl, ?_⟩
  have hE : readExact 4 (b0 :: b1 :: b2 :: b3 :: rest) = .ok ([b0, b1, b2, b3], rest) := rfl
  have hn : ¬ (toSigned 32 (ByteOrder.toUint order [b0, b1, b2, b3]) < 0) := not_lt.mpr h0
  have hlen : rest.length < (toSigned 32 (ByteOrder.toUint order [b0, b1, b2, b3])).toNat := by
    omega
  simp [readTagByteArrayPayload, readI32, hE, hn, readByteElems_short _ _ hlen]

/-- C9: a List payload whose element-type byte is 0 (End) with a declared
count of at least 1 is not specially rejected by the list reader: its first
loop iteration recurses into the payload dispatcher for id 0, whose End
case has no payload reader and errors, so the whole list decode fails with
exactly that dispatcher error. -/
theorem C9_list_of_end_type (order : ByteOrder) (b0 b1 b2 b3 fuel : Nat)
    (rest : List Nat)
    (h : 1 ≤ toSigned 32 (ByteOrder.toUint order [b0, b1, b2, b3])) :
    readTagListPayload (fuel + 3) order (0 :: b0 :: b1 :: b2 :: b3 :: rest)
      = .error .endPayload
    ∧ readTagPayload (fuel + 1) order 0 rest = .error .endPayload := by
  refine ⟨?_, rfl⟩
  have hE : readExact 4 (b0 :: b1 :: b2 :: b3 :: rest) = .ok ([b0, b1, b2, b3], rest) := rfl
  obtain ⟨k, hk⟩ :
      ∃ k, (toSigned 32 (ByteOrder.toUint order [b0, b1, b2, b3])).toNat = k + 1 :=
    ⟨(toSigned 32 (ByteOrder.toUint order [b0, b1, b2, b3])).toNat - 1, by omega⟩
  simp [readTagListPayload, readU8, readI32, hE, hk, readListElems, readTagPayload]

/-- C6: a Compound payload whose stream immediately supplies the End byte
0x00 decodes to an empty child sequence with only that byte consumed; on
the empty stream it fails with the incomplete error; each successfully
read non-End child is prepended in wire order to the result of decoding
the remainder; and any error of the nested tag decode (in particular the
incomplete error on an exhausted stream) propagates as the compound's
result. -/
theorem C6_compound (order : ByteOrder) (fuel : Nat) (s s2 sE rest : List Nat)
    (t : Tag) (e : Err)
    (hp1 : ReadTag (fuel + 1) order s = .ok (t, s2)) (hp2 : ¬ t.id = 0)
    (hp3 : ReadTag (fuel + 1) order sE = .error e) :
    readTagCompoundPayload (fuel + 2) order (0 :: rest) = .ok ([], rest)
    ∧ readTagCompoundPayload (fuel + 2) order [] = .error .incomplete
    ∧ readTagCompoundPayload (fuel + 2) order s =
        (readTagCompoundPayload (fuel + 1) order s2).map (fun p => (t :: p.1, p.2))
    ∧ readTagCompoundPayload (fuel + 2) order sE = .error e := by
  refine ⟨rfl, rfl, ?_, ?_⟩
  · have h2 : ¬ t.id = tagEnd := hp2
    show readTagCompoundPayload (fuel + 1 + 1) order s = _
    rw [readTagCompoundPayload_succ (fuel + 1), hp1]
    cases hrec : readTagCompoundPayload (fuel + 1) order s2 with
    | error e2 => simp [h2, hrec, Except.map]
    | ok p => simp [h2, hrec, Except.map]
  · show readTagCompoundPayload (fuel + 1 + 1) order sE = _
    rw [readTagCompoundPayload_succ (fuel + 1), hp3]

/-- Witness for C1 (amended) at size bytes 0xFF 0xFF 0xFF 0xFF (−1). -/
theorem C1_amended_witness :
    toSigned 32 (ByteOrder.toUint .big [255, 255, 255, 255]) < 0
    ∧ (readTagByteArrayPayload .big (255 :: 255 :: 255 :: 255 :: [])
        = .error (.negativeSize (toSigned 32 (ByteOrder.toUint .big [255, 255, 255, 255])))
      ∧ readTagIntArrayPayload .big (255 :: 255 :: 255 :: 255 :: [])
        = .error (.negativeSize (toSigned 32 (ByteOrder.toUint .big [255, 255, 255, 255])))
      ∧ readTagLongArrayPayload .big (255 :: 255 :: 255 :: 255 :: [])
        = .error (.negativeSize (toSigned 32 (ByteOrder.toUint .big [255, 255, 255, 255])))
      ∧ readTagListPayload (0 + 2) .big (1 :: 255 :: 255 :: 255 :: 255 :: [])
        = .ok ([], [])) :=
  ⟨by decide, C1_amended .big 255 255 255 255 1 0 [] (by decide)⟩

/-- Witness for C3 at first byte 13. -/
theorem C3_tag_id_bounds_witness :
    13 ≤ 13
    ∧ (ReadTag (0 + 1) .big (13 :: []) = .error (.invalidTagId 13)
      ∧ decodeOk 9 .big [0] = true
      ∧ decodeOk 9 .big [1, 0, 0, 7] = true
      ∧ decodeOk 9 .big [2, 0, 0, 0, 1] = true
      ∧ decodeOk 9 .big [3, 0, 0, 0, 0, 0, 1] = true
      ∧ decodeOk 9 .big [4, 0, 0, 0, 0, 0, 0, 0, 0, 0, 1] = true
      ∧ decodeOk 9 .big [5, 0, 0, 0, 0, 0, 0] = true
      ∧ decodeOk 9 .big [6, 0, 0, 0, 0, 0, 0, 0, 0, 0, 0] = true
      ∧ decodeOk 9 .big [7, 0, 0, 0, 0, 0, 0] = true
      ∧ decodeOk 9 .big [8, 0, 0, 0, 0] = true
      ∧ decodeOk 9 .big [9, 0, 0, 1, 0, 0, 0, 0] = true
      ∧ decodeOk 9 .big [10, 0, 0, 0] = true
      ∧ decodeOk 9 .big [11, 0, 0, 0, 0, 0, 0] = true
      ∧ decodeOk 9 .big [12, 0, 0, 0, 0, 0, 0] = true) :=
  ⟨by decide, C3_tag_id_bounds .big 13 0 [] (by decide)⟩

/-- Witness for C5 at length 2 and payload bytes 0xC0 0xFF. -/
theorem C5_utf8_enforcement_witness :
    utf8Valid [192, 255] = false
    ∧ ByteOrder.toUint .big [0, 2] = List.length [192, 255]
    ∧ (readTagStringPayload .big (0 :: 2 :: ([192, 255] ++ []))
        = .error .invalidEncoding
      ∧ (List.length [192, 255] < 2 ^ 15 →
          readTagName .big (0 :: 2 :: ([192, 255] ++ []))
            = .error .invalidEncoding)
      ∧ Err.invalidEncoding ≠ Err.incomplete) :=
  ⟨by decide, by decide, C5_utf8_enforcement .big 0 2 [192, 255] [] (by decide) (by decide)⟩

/-- Witness for C7 at declared size 8 with 3 trailing bytes. -/
theorem C7_bytearray_truncation_witness :
    0 ≤ toSigned 32 (ByteOrder.toUint .big [0, 0, 0, 8])
    ∧ (List.length [1, 2, 3] : Int) < toSigned 32 (ByteOrder.toUint .big [0, 0, 0, 8])
    ∧ (readTagByteArrayPayload .big [0, 0, 0, 8, 1, 2, 3] = .error .incomplete
      ∧ readTagByteArrayPayload .big (0 :: 0 :: 0 :: 8 :: [1, 2, 3]) = .error .incomplete) :=
  ⟨by decide, by decide, C7_bytearray_truncation .big 0 0 0 8 [1, 2, 3] (by decide) (by decide)⟩

/-- Witness for C9 at declared count 1. -/
theorem C9_list_of_end_type_witness :
    1 ≤ toSigned 32 (ByteOrder.toUint .big [0, 0, 0, 1])
    ∧ (readTagListPayload (0 + 3) .big (0 :: 0 :: 0 :: 0 :: 1 :: [])
        = .error .endPayload
      ∧ readTagPayload (0 + 1) .big 0 [] = .error .endPayload) :=
  ⟨by decide, C9_list_of_end_type .big 0 0 0 1 0 [] (by decide)⟩

/-- Witness for C6: the child is a Byte tag read off `[1,0,0,7,0]`, the
error stream is empty. -/
theorem C6_compound_witness :
    ReadTag (1 + 1) .big [1, 0, 0, 7, 0]
      = .ok (Tag.mk 1 [] (some (Payload.byte 7)), [0])
    ∧ ¬ (Tag.mk 1 [] (some (Payload.byte 7))).id = 0
    ∧ ReadTag (1 + 1) .big [] = .error .incomplete
    ∧ (readTagCompoundPayload (1 + 2) .big (0 :: [9]) = .ok ([], [9])
      ∧ readTagCompoundPayload (1 + 2) .big [] = .error .incomplete
      ∧ readTagCompoundPayload (1 + 2) .big [1, 0, 0, 7, 0] =
          (readTagCompoundPayload (1 + 1) .big [0]).map
            (fun p => (Tag.mk 1 [] (some (Payload.byte 7)) :: p.1, p.2))
      ∧ readTagCompoundPayload (1 + 2) .big [] = .error .incomplete) :=
  ⟨rfl, by decide, rfl,
    C6_compound .big 1 [1, 0, 0, 7, 0] [0] [] [9]
      (Tag.mk 1 [] (some (Payload.byte 7))) .incomplete rfl (by decide) rfl⟩

end NBT
